import Mathlib

/-!
Verification development for the Bulk Image Cleaner repository
(backend: Express OAuth relay in backend/dist/server.js + webflow.js;
frontend: Webflow Designer extension in frontend/src/App.tsx).

The definitions below are a shallow embedding of the code: JavaScript
strings become Lean String, JS objects and Maps become association lists
(with the same overwrite/lookup direction as the source), fallible host
calls become Option-valued data, and the external HTTP world is passed in
as an explicit function argument.
-/

/-- JS coercion "String(x || \"\")" for an optional string field:
a missing field becomes the empty string. -/
def jsStr (o : Option String) : String := o.getD ""

/-- JS "a || b" on strings: the first operand wins unless it is falsy
(the empty string). -/
def jsOrStr (a b : String) : String := if a = "" then b else a

/-- JS "s.startsWith(pat)". -/
def jsStartsWith (s pat : String) : Bool :=
  s.toList.take pat.toList.length = pat.toList

/-- JS "s.trim()": strip whitespace from both ends. -/
def jsTrim (s : String) : String :=
  String.mk (((s.toList.dropWhile Char.isWhitespace).reverse.dropWhile
    Char.isWhitespace).reverse)

/-- JS "s.includes(pat)" substring test. -/
def strIncludes (s pat : String) : Bool :=
  (List.range (s.toList.length + 1)).any
    (fun i => (s.toList.drop i).take pat.toList.length = pat.toList)

/-- ASCII case lowering of one character (the only case JS
toLowerCase distinguishes for the names and ids this app handles). -/
def charToLower (c : Char) : Char :=
  if Char.ofNat 65 ≤ c ∧ c ≤ Char.ofNat 90 then Char.ofNat (c.toNat + 32) else c

/-- JS "s.toLowerCase()". -/
def jsToLower (s : String) : String := String.mk (s.toList.map charToLower)

/-- Splitter for JS String.prototype.split against a character class:
every separator character ends the current (possibly empty) field. -/
def splitCharsAux (p : Char → Bool) : List Char → List Char → List (List Char)
  | acc, [] => [acc.reverse]
  | acc, c :: rest =>
    if p c then acc.reverse :: splitCharsAux p [] rest
    else splitCharsAux p (c :: acc) rest

/-- JS "s.split(class)" on a character class. -/
def jsSplit (s : String) (p : Char → Bool) : List String :=
  (splitCharsAux p [] s.toList).map String.mk

-- -----------------------------------------------------------------
-- Backend session state (server.js, express-session SessionData)
-- -----------------------------------------------------------------

/-- One entry of the per-session authorized-site map
(type AuthorizedSite in server.js / webflow-session.d.ts). -/
structure AuthorizedSite where
  siteId : String
  siteName : Option String
  accessToken : Option String
  scopes : Option String
  firstSeenAt : Nat
  lastSeenAt : Nat
deriving DecidableEq, Repr

/-- The session fields the API handlers read and write
(SessionData in the express-session module declaration).
authorizedSites is an association list keyed by site id, in JS object
insertion order; none models a session where the field was never set. -/
structure SessionState where
  accessToken : Option String
  authorizedSites : Option (List (String × AuthorizedSite))
deriving DecidableEq, Repr

/-- The site map a handler observes after ensureAuthorizedSites ran:
the stored map, or empty when the field was never set. -/
def sitesMapOf (s : SessionState) : List (String × AuthorizedSite) :=
  s.authorizedSites.getD []

/-- ensureAuthorizedSites (server.js): initializes the session field to an
empty object when missing, and returns the (now present) map together with
the possibly-updated session. -/
def ensureAuthorizedSites (s : SessionState) :
    SessionState × List (String × AuthorizedSite) :=
  match s.authorizedSites with
  | some m => (s, m)
  | none => ({ s with authorizedSites := some [] }, [])

/-- hasAnyAuthorization (server.js, dist variant, lines 147-163):
true exactly when the session has an authorizedSites object with at least
one entry whose accessToken is a non-blank string after String(.. || "")
and trim. A session-level OAuth accessToken alone does not count. -/
def hasAnyAuthorization (s : SessionState) : Bool :=
  match s.authorizedSites with
  | none => false
  | some sites =>
    if sites.isEmpty then false
    else sites.any (fun e => jsTrim (jsStr e.2.accessToken) ≠ "")

/-- Response body of GET /api/auth/status (dist variant). -/
structure AuthStatusResponse where
  authenticated : Bool
  authorizedSitesCount : Nat
  siteIds : List String
deriving DecidableEq, Repr

/-- GET /api/auth/status handler (server.js, dist variant):
runs ensureAuthorizedSites on the session, then reports
hasAnyAuthorization, Object.keys(map).length and Object.keys(map). -/
def authStatusHandler (s : SessionState) : SessionState × AuthStatusResponse :=
  let (s1, m) := ensureAuthorizedSites s
  (s1,
   { authenticated := hasAnyAuthorization s1
     authorizedSitesCount := m.length
     siteIds := m.map Prod.fst })

/-- getAccessTokenForSite (server.js): looks the trimmed site id up in the
session map and resolves String(entry?.accessToken || session.accessToken
|| "").trim(). -/
def getAccessTokenForSite (s : SessionState) (siteId : String) :
    SessionState × String :=
  let (s1, m) := ensureAuthorizedSites s
  let entry := m.lookup (jsTrim siteId)
  (s1, jsTrim (jsOrStr (jsStr (entry.bind AuthorizedSite.accessToken))
          (jsStr s1.accessToken)))

-- -----------------------------------------------------------------
-- The webflowApi object (webflow.js)
-- -----------------------------------------------------------------

/-- Which method groups the webflowApi object exported by webflow.js
actually carries. -/
structure WebflowApiShape where
  hasTokenAuthorizedBy : Bool
  hasTokenIntrospect : Bool
  hasSitesList : Bool
  hasAssetsDelete : Bool
deriving DecidableEq, Repr

/-- The webflowApi object literal at the end of webflow.js: it provides
token.authorizedBy, token.introspect and sites.list, and no assets group
at all, so any access to webflowApi.assets yields undefined. -/
def webflowApi : WebflowApiShape :=
  { hasTokenAuthorizedBy := true
    hasTokenIntrospect := true
    hasSitesList := true
    hasAssetsDelete := false }

-- -----------------------------------------------------------------
-- DELETE /api/sites/:siteId/assets/:assetId  (server.js)
-- -----------------------------------------------------------------

/-- What the backend sends for one request, together with the calls it
made to the external asset-delete endpoint (bearer token, asset id). -/
structure HttpRes where
  status : Nat
  body : Option String
  extDeleteCalls : List (String × String)
deriving DecidableEq, Repr

/-- DELETE /api/sites/:siteId/assets/:assetId with the requireAuth
middleware in front of it (server.js, dist variant, lines 304-319).
ext models the external DELETE /v2/assets/:id endpoint: none is a 2xx
success, some st is a WebflowError with that HTTP status.  The handler
line "await webflowApi.assets.delete(token, assetId)" dereferences the
missing assets member of webflowApi; in JS that throws a TypeError, which
asyncRoute forwards to the final error handler, where isWebflowError is
false for a TypeError, so the client receives the generic 500. -/
def deleteAssetRoute (ext : String → String → Option Nat)
    (s : SessionState) (siteIdRaw assetIdRaw : String) :
    SessionState × HttpRes :=
  if ¬ hasAnyAuthorization s then
    (s, { status := 401, body := some "Not authenticated", extDeleteCalls := [] })
  else
    let siteId := jsTrim siteIdRaw
    let assetId := jsTrim assetIdRaw
    if siteId = "" ∨ assetId = "" then
      (s, { status := 400, body := some "Missing siteId or assetId", extDeleteCalls := [] })
    else
      let (s1, m) := ensureAuthorizedSites s
      match m.lookup siteId with
      | none =>
        (s1, { status := 403, body := some "Site is not authorized for this session",
               extDeleteCalls := [] })
      | some _ =>
        let (s2, token) := getAccessTokenForSite s1 siteId
        if token = "" then
          (s2, { status := 401, body := some "Not authenticated", extDeleteCalls := [] })
        else
          if webflowApi.hasAssetsDelete then
            match ext token assetId with
            | none => (s2, { status := 204, body := none, extDeleteCalls := [(token, assetId)] })
            | some st => (s2, { status := st, body := some "Webflow API error",
                                extDeleteCalls := [(token, assetId)] })
          else
            (s2, { status := 500, body := some "Server error", extDeleteCalls := [] })

-- -----------------------------------------------------------------
-- Scope merging (webflow.js)
-- -----------------------------------------------------------------

/-- raw.split(/[\s,]+/).map(trim).filter(Boolean): the non-empty fields of
a scope string separated by commas or whitespace. -/
def splitScopes (raw : String) : List String :=
  ((jsSplit raw (fun c => c = ',' || c.isWhitespace)).map jsTrim).filter
    (fun sc => sc ≠ "")

/-- normalizeScopes (webflow.js). -/
def normalizeScopes (raw : String) : String :=
  " ".intercalate (splitScopes raw)

/-- The list mergeScopes (webflow.js) builds before joining: required
scopes first, then each provided scope that is not among the required
ones.  The skip set is the fixed set of required scopes; it is never
extended while provided scopes are pushed. -/
def mergeScopesList (required provided : String) : List String :=
  let req := splitScopes required
  let prov := splitScopes provided
  req ++ prov.filter (fun sc => ¬ sc ∈ req)

/-- mergeScopes (webflow.js): out.join(" "). -/
def mergeScopes (required provided : String) : String :=
  " ".intercalate (mergeScopesList required provided)

/-- REQUIRED_SCOPES constant inside authorizeUrl (webflow.js). -/
def requiredScopesConst : String :=
  "sites:read,authorized_user:read,assets:read,assets:write"

/-- The scope query parameter authorizeUrl (webflow.js) puts into the
OAuth authorize URL: normalizeScopes(mergeScopes(REQUIRED_SCOPES,
process.env.WEBFLOW_SCOPES)); a missing env var behaves as "". -/
def authorizeUrlScope (envScopes : Option String) : String :=
  normalizeScopes (mergeScopes requiredScopesConst (jsStr envScopes))

-- -----------------------------------------------------------------
-- GET /api/sites  (server.js)
-- -----------------------------------------------------------------

/-- One row of the GET /api/sites response. -/
structure SiteRow where
  id : String
  displayName : Option String
  shortName : Option String
deriving DecidableEq, Repr

/-- The unsorted rows: Object.keys(map).map(id => ...). -/
def siteRowsOf (m : List (String × AuthorizedSite)) : List SiteRow :=
  m.map (fun p => { id := p.1, displayName := p.2.siteName, shortName := p.2.siteName })

/-- The comparator key String(a.displayName || a.id). -/
def sortKey (r : SiteRow) : String :=
  jsOrStr (jsStr r.displayName) r.id

/-- Modelled from the spec: the "case/locale-aware comparison" of the
sites endpoint is the JS builtin String.prototype.localeCompare, whose
implementation is not part of this repository.  Only the properties used
by the claims matter: it is a total comparison with
localeCompareModel x x = Ordering.eq; we realize it as the plain
dictionary comparison on strings. -/
def charListCompare : List Char → List Char → Ordering
  | [], [] => Ordering.eq
  | [], _ :: _ => Ordering.lt
  | _ :: _, [] => Ordering.gt
  | a :: as, b :: bs =>
    if a < b then Ordering.lt
    else if b < a then Ordering.gt
    else charListCompare as bs

def localeCompareModel (a b : String) : Ordering :=
  charListCompare a.toList b.toList

/-- GET /api/sites handler behind requireAuth (server.js, dist variant,
lines 291-301): none models the 401 from requireAuth; otherwise the rows
are sorted with Array.prototype.sort, which is a stable sort, under
comparator cmp on the displayName-or-id key; we realize the stable sort
as a stable insertion sort, which agrees with every stable sort for a
comparator that is a total preorder.  The comparator consults only that
key: site ids take part only as the fallback key of a row with no
display name, never as a tiebreaker. -/
def sitesHandler (cmp : String → String → Ordering) (s : SessionState) :
    SessionState × Option (List SiteRow) :=
  if ¬ hasAnyAuthorization s then (s, none)
  else
    let (s1, m) := ensureAuthorizedSites s
    (s1, some (List.insertionSort
      (fun a b => cmp (sortKey a) (sortKey b) ≠ Ordering.gt) (siteRowsOf m)))

-- -----------------------------------------------------------------
-- Frontend document model (App.tsx runScan)
-- -----------------------------------------------------------------

/-- One asset as the scan sees it after enumeration: String(asset.id),
the name (default "Untitled"), the url ("" when getUrl is absent or
failed) and the MIME type ("" when getMimeType is absent or failed). -/
structure AssetData where
  id : String
  name : String
  url : String
  mimeType : String
deriving DecidableEq, Repr

/-- One element of a page.  boundAssetId is the id of the asset
el.getAsset() returned when the element exposes getAsset and the call
succeeded with a truthy id; none otherwise.  stylesPayloads are the
stringified property payloads of el.getStyles() (none for a style whose
getProperties fetch failed or returned null); stylePayload is the same
for el.getStyle(); backgroundImageId is the truthy id returned by
el.getBackgroundImage(). -/
structure ElementData where
  typ : String
  boundAssetId : Option String
  stylesPayloads : List (Option String)
  stylePayload : Option String
  backgroundImageId : Option String
deriving DecidableEq, Repr

/-- One page: whether webflow.switchPage succeeded, its elements, and the
OG / search image urls (none when the getter is absent or failed). -/
structure PageData where
  switchOk : Bool
  elements : List ElementData
  ogImageUrl : Option String
  searchImageUrl : Option String
deriving DecidableEq, Repr

/-- The whole host document runScan walks: the enumerated assets, the
pages (getAllPagesAndFolders filtered to type Page), whether
webflow.getAllStyles exists, and the global style payloads (none for a
style whose getProperties fetch failed). -/
structure DocumentData where
  assets : List AssetData
  pages : List PageData
  hasGetAllStyles : Bool
  globalStyles : List (Option String)
deriving DecidableEq, Repr

/-- The image subset of the assets: mimeType.startsWith("image/"). -/
def imagesOf (doc : DocumentData) : List AssetData :=
  doc.assets.filter (fun a => jsStartsWith a.mimeType "image/")

/-- imageById.get with JS Map semantics: the map is built by one set per
image, so for duplicate ids the last insertion wins.  The result is the
index of the image in the enumerated image list. -/
def imageIdLookupAux (assetId : String) : List AssetData → Nat → Option Nat
  | [], _ => none
  | a :: rest, k =>
    match imageIdLookupAux assetId rest (k + 1) with
    | some j => some j
    | none => if a.id = assetId then some k else none

/-- Index of the image imageById.get(assetId) resolves to. -/
def imageIdLookup (images : List AssetData) (assetId : String) : Option Nat :=
  imageIdLookupAux assetId images 0

/-- urlToId.get with JS Map semantics: only images with a non-empty url
were inserted, and for duplicate urls the last insertion wins. -/
def urlLookupAux (u : String) : List AssetData → Option String
  | [] => none
  | a :: rest =>
    match urlLookupAux u rest with
    | some i => some i
    | none => if a.url = u ∧ a.url ≠ "" then some a.id else none

/-- The asset id urlToId.get(u) resolves to. -/
def urlLookup (images : List AssetData) (u : String) : Option String :=
  urlLookupAux u images

/-- Hexadecimal digit in either case, as matched by /[a-f0-9]{24}/gi. -/
def isHexDigitChar (c : Char) : Bool :=
  (Char.ofNat 48 ≤ c ∧ c ≤ Char.ofNat 57) ||
  (Char.ofNat 97 ≤ c ∧ c ≤ Char.ofNat 102) ||
  (Char.ofNat 65 ≤ c ∧ c ≤ Char.ofNat 70)

/-- The global regex scan s.match(/[a-f0-9]{24}/gi): leftmost matches of
exactly 24 hex characters, non-overlapping, resuming right after each
match; fuel is the remaining length, and every step consumes at least one
character. -/
def scanHexAux : Nat → List Char → List String
  | 0, _ => []
  | _ + 1, [] => []
  | fuel + 1, c :: rest =>
    let cs := c :: rest
    if (cs.take 24).length = 24 ∧ (cs.take 24).all isHexDigitChar then
      String.mk (cs.take 24) :: scanHexAux fuel (cs.drop 24)
    else
      scanHexAux fuel rest

/-- All 24-character hex tokens the id scan finds in a payload string. -/
def scanHexIds (s : String) : List String :=
  scanHexAux s.length s.toList

/-- A character that ends a url match of /https?:\/\/[^\s"')]+/g:
whitespace, double quote, single quote or closing parenthesis. -/
def isUrlStopChar (c : Char) : Bool :=
  c.isWhitespace || c = Char.ofNat 34 || c = Char.ofNat 39 || c = Char.ofNat 41

/-- The global regex scan s.match(/https?:\/\/[^\s"')]+/g): at each
position try the literal scheme, then take a maximal non-empty run of
characters outside the stop class; on success resume after the match,
otherwise advance one character. -/
def scanUrlsAux : Nat → List Char → List String
  | 0, _ => []
  | _ + 1, [] => []
  | fuel + 1, c :: rest =>
    let cs := c :: rest
    if cs.take 8 = "https://".toList then
      let run := (cs.drop 8).takeWhile (fun d => ¬ isUrlStopChar d)
      if run.isEmpty then scanUrlsAux fuel rest
      else String.mk ("https://".toList ++ run) :: scanUrlsAux fuel (cs.drop (8 + run.length))
    else if cs.take 7 = "http://".toList then
      let run := (cs.drop 7).takeWhile (fun d => ¬ isUrlStopChar d)
      if run.isEmpty then scanUrlsAux fuel rest
      else String.mk ("http://".toList ++ run) :: scanUrlsAux fuel (cs.drop (7 + run.length))
    else
      scanUrlsAux fuel rest

/-- All http(s) url tokens the url scan finds in a payload string. -/
def scanUrls (s : String) : List String :=
  scanUrlsAux s.length s.toList

/-- A map-lookup result that passes a JS truthiness check: a present,
non-empty id survives, everything else is dropped. -/
def truthyOpt (o : Option String) : Option String :=
  match o with
  | some i => if i = "" then none else some i
  | none => none

/-- The sequence of ids scanStylePayload passes to markUsed for one
payload: first the 24-hex tokens that pass the imageById.has check, then
the urlToId hits (markUsed is called only when the map returned a truthy
id).  A payload of null contributes nothing. -/
def payloadCalls (images : List AssetData) (payload : Option String) : List String :=
  match payload with
  | none => []
  | some s =>
    (scanHexIds s).filter (fun tok => (imageIdLookup images tok).isSome) ++
    (scanUrls s).filterMap (fun u => truthyOpt (urlLookup images u))

/-- markUsed calls from a truthy optional id (the getAsset and
getBackgroundImage code paths guard with if (x?.id)). -/
def optIdCalls (o : Option String) : List String :=
  match o with
  | some i => if i = "" then [] else [i]
  | none => []

/-- markUsed calls from one element, in source order: the Image-element
asset binding, the payloads of getStyles, the payload of getStyle, and
the background-image asset. -/
def elementCalls (images : List AssetData) (el : ElementData) : List String :=
  (if el.typ = "Image" then optIdCalls el.boundAssetId else []) ++
  el.stylesPayloads.flatMap (payloadCalls images) ++
  payloadCalls images el.stylePayload ++
  optIdCalls el.backgroundImageId

/-- markUsed calls from one page social-preview url field: a truthy url
looked up in urlToId, markUsed on a truthy hit. -/
def pageUrlCalls (images : List AssetData) (o : Option String) : List String :=
  match o with
  | none => []
  | some u =>
    if u = "" then [] else optIdCalls (truthyOpt (urlLookup images u))

/-- markUsed calls from one successfully switched-to page: its elements,
then the OG image, then the search image. -/
def pageCalls (images : List AssetData) (p : PageData) : List String :=
  p.elements.flatMap (elementCalls images) ++
  pageUrlCalls images p.ogImageUrl ++
  pageUrlCalls images p.searchImageUrl

/-- The whole sequence of markUsed calls of one sweep: the pages whose
switchPage succeeded in order, then (when getAllStyles exists) the global
style payloads; the style batches of 40 are awaited batch by batch in
list order, so the call order is the list order. -/
def collectCalls (doc : DocumentData) : List String :=
  (doc.pages.filter PageData.switchOk).flatMap (pageCalls (imagesOf doc)) ++
  (if doc.hasGetAllStyles then doc.globalStyles.flatMap (payloadCalls (imagesOf doc)) else [])

/-- markUsed (App.tsx): resolve the id in imageById; when the entry
exists and is not yet marked, mark it (and the reference counter moves in
step with the marked set, so it is its size). The marked set is kept as
the list of marked image indices. -/
def markUsed (images : List AssetData) (marked : List Nat) (assetId : String) : List Nat :=
  if assetId = "" then marked
  else
    match imageIdLookup images assetId with
    | none => marked
    | some j => if j ∈ marked then marked else j :: marked

/-- One row of the scan result. -/
structure ImageRow where
  id : String
  name : String
  url : String
  mimeType : String
  isUnused : Bool
deriving DecidableEq, Repr

/-- The result rows: each image with isUnused = !used. -/
def mkRows (marked : List Nat) : Nat → List AssetData → List ImageRow
  | _, [] => []
  | k, a :: rest =>
    { id := a.id, name := a.name, url := a.url, mimeType := a.mimeType,
      isUnused := decide (¬ k ∈ marked) } :: mkRows marked (k + 1) rest

/-- Scan metadata (ScanMeta in App.tsx, without the wall-clock time). -/
structure ScanMeta where
  scannedPages : Nat
  scannedElements : Nat
  scannedStyles : Nat
  detectedReferences : Nat
  scannedAssets : Nat
deriving DecidableEq, Repr

/-- Scan result (ScanResult in App.tsx). -/
structure ScanOutcome where
  images : List ImageRow
  meta : ScanMeta
deriving DecidableEq, Repr

/-- runScan (App.tsx, lines 330-597), as a function of the host document:
filter assets to images, build the id and url maps, walk every
successfully switched-to page (elements, then the page social-preview
images), then every global style payload, marking used assets; report
the rows and counters. -/
def runScan (doc : DocumentData) : ScanOutcome :=
  let images := imagesOf doc
  let marked := (collectCalls doc).foldl (markUsed images) []
  let okPages := doc.pages.filter PageData.switchOk
  { images := mkRows marked 0 images
    meta :=
      { scannedPages := okPages.length
        scannedElements := (okPages.map (fun p => p.elements.length)).sum
        scannedStyles := if doc.hasGetAllStyles then doc.globalStyles.length else 0
        detectedReferences := marked.length
        scannedAssets := doc.assets.length } }

/-- Number of rows the sweep reports unused. -/
def unusedCount (r : ScanOutcome) : Nat :=
  (r.images.filter ImageRow.isUnused).length

/-- Ids of the rows the sweep reports unused. -/
def unusedIds (r : ScanOutcome) : List String :=
  (r.images.filter ImageRow.isUnused).map ImageRow.id

-- -----------------------------------------------------------------
-- The reference relation the sweep is claimed to decide
-- -----------------------------------------------------------------

/-- A style payload mentions an image: the id scan finds its id, or the
url scan finds a url that the url map resolves to its id. -/
def PayloadMentions (images : List AssetData) (payload : Option String)
    (img : AssetData) : Prop :=
  ∃ s, payload = some s ∧
    (img.id ∈ scanHexIds s ∨ ∃ u ∈ scanUrls s, urlLookup images u = some img.id)

/-- A page social-preview url field references an image: the field is
present and non-empty and the url map resolves it to the image. -/
def PageUrlMentions (images : List AssetData) (o : Option String)
    (img : AssetData) : Prop :=
  ∃ u, o = some u ∧ u ≠ "" ∧ urlLookup images u = some img.id

/-- An element references an image: it is an Image element bound to the
asset, or one of its style payloads mentions it, or its background image
is the asset. -/
def ElementMentions (images : List AssetData) (el : ElementData)
    (img : AssetData) : Prop :=
  (el.typ = "Image" ∧ el.boundAssetId = some img.id) ∨
  (∃ payload ∈ el.stylesPayloads, PayloadMentions images payload img) ∨
  PayloadMentions images el.stylePayload img ∨
  el.backgroundImageId = some img.id

/-- An image asset is referenced somewhere the sweep looks: by an element
of a successfully visited page, by that page's OG or search image, or by
a global style payload (when getAllStyles exists). -/
def Referenced (doc : DocumentData) (img : AssetData) : Prop :=
  (∃ p ∈ doc.pages.filter PageData.switchOk,
    (∃ el ∈ p.elements, ElementMentions (imagesOf doc) el img) ∨
    PageUrlMentions (imagesOf doc) p.ogImageUrl img ∨
    PageUrlMentions (imagesOf doc) p.searchImageUrl img) ∨
  (doc.hasGetAllStyles ∧
    ∃ payload ∈ doc.globalStyles, PayloadMentions (imagesOf doc) payload img)

-- -----------------------------------------------------------------
-- Unused list, search filter and select-all toggle (App.tsx)
-- -----------------------------------------------------------------

/-- unusedImages (App.tsx): the unused rows, narrowed by the search
query (case-insensitive name or id substring) when it is non-blank. -/
def listedUnused (images : List ImageRow) (query : String) : List ImageRow :=
  let base := images.filter ImageRow.isUnused
  let q := jsToLower (jsTrim query)
  if q = "" then base
  else base.filter (fun img =>
    strIncludes (jsToLower img.name) q || strIncludes (jsToLower img.id) q)

/-- allUnusedIds (App.tsx): the set of ids of all unused rows of the scan
result (the search query does not narrow this set). -/
def allUnusedIds (images : List ImageRow) : Finset String :=
  ((images.filter ImageRow.isUnused).map ImageRow.id).toFinset

/-- toggleSelectAllUnused (App.tsx, lines 635-650): with no unused ids the
selection is unchanged; when every unused id is already selected the
selection becomes empty; otherwise it becomes exactly the unused ids. -/
def toggleSelectAllUnused (images : List ImageRow) (prev : Finset String) :
    Finset String :=
  let all := allUnusedIds images
  if all = ∅ then prev
  else if all ⊆ prev then ∅ else all

-- -----------------------------------------------------------------
-- Delete pipeline (App.tsx performDelete)
-- -----------------------------------------------------------------

/-- One asset handle the Designer host hands out.  removeMethod: none
when the object has no remove method, some b when calling remove()
succeeds iff b.  hostRemoveOk: whether webflow.removeAsset(asset)
succeeds for this handle. -/
structure AssetHandle where
  removeMethod : Option Bool
  hostRemoveOk : Bool
deriving DecidableEq, Repr

/-- The Designer host surface performDelete uses: the getAllAssets
enumeration (String(a.id) keyed), whether getAssetById exists and what it
returns (none models a throw or a null result), and whether the
host-level removeAsset function exists. -/
structure DeleteHost where
  enumerated : List (String × AssetHandle)
  hasGetAssetById : Bool
  getAssetByIdFn : String → Option AssetHandle
  hasRemoveAsset : Bool

/-- byId.get with JS Map-constructor semantics (later entries win). -/
def handleLookup : List (String × AssetHandle) → String → Option AssetHandle
  | [], _ => none
  | (k, h) :: rest, i =>
    match handleLookup rest i with
    | some r => some r
    | none => if k = i then some h else none

/-- tryRemoveFromDesigner (App.tsx, lines 671-699): resolve the handle
(falling back to getAssetById when the enumeration had none); with no
handle at all the function returns true; otherwise try asset.remove(),
then webflow.removeAsset(asset), and report false when both are missing
or threw. -/
def tryRemoveFromDesigner (host : DeleteHost) (assetMaybe : Option AssetHandle)
    (assetId : String) : Bool :=
  let asset :=
    match assetMaybe with
    | some a => some a
    | none => if host.hasGetAssetById then host.getAssetByIdFn assetId else none
  match asset with
  | none => true
  | some a =>
    if a.removeMethod = some true then true
    else host.hasRemoveAsset && a.hostRemoveOk

/-- An error the frontend api.deleteAsset call surfaces (ApiError in
api.ts): the HTTP status and the message string. -/
structure ApiErr where
  status : Nat
  message : String
deriving DecidableEq, Repr

/-- JS Set.prototype.add on a list kept in insertion order. -/
def insertIfAbsent (l : List String) (x : String) : List String :=
  if x ∈ l then l else l ++ [x]

/-- The mutable loop state of performDelete. -/
structure DelState where
  deleted : List String
  failed : List String
  authFailed : Bool
  scopeFailed : Bool
deriving Repr

/-- Whether the backend leg of one pipeline item succeeds: it is only
attempted when a site id is known, and succeeds when api.deleteAsset does
not throw. -/
def backendLegOk (backend : String → String → Option ApiErr)
    (siteId assetId : String) : Bool :=
  siteId ≠ "" && (backend siteId assetId).isNone

/-- Whether the best-effort Designer leg of one pipeline item succeeds. -/
def designerLegOk (host : DeleteHost) (assetId : String) : Bool :=
  tryRemoveFromDesigner host (handleLookup host.enumerated assetId) assetId

/-- Whether one pipeline item counts as deleted: either leg succeeded. -/
def itemOk (host : DeleteHost) (backend : String → String → Option ApiErr)
    (siteId assetId : String) : Bool :=
  backendLegOk backend siteId assetId || designerLegOk host assetId

/-- The per-item loop of performDelete (App.tsx, lines 707-734): for each
selected id, attempt the backend delete (recording the 401 / 403-or-scope
failure categories), then the best-effort Designer removal; the id goes
to the deleted set when either leg succeeded, to the failed list
otherwise, and the loop always continues to the next id. -/
def performDeleteLoop (host : DeleteHost)
    (backend : String → String → Option ApiErr) (siteId : String) :
    List String → DelState → DelState
  | [], st => st
  | i :: rest, st =>
    let st1 :=
      if siteId ≠ "" then
        match backend siteId i with
        | none => st
        | some e =>
          { st with
            authFailed := st.authFailed || (e.status == 401)
            scopeFailed := st.scopeFailed ||
              (e.status == 403 || strIncludes (jsToLower e.message) "scope" ||
                strIncludes (jsToLower e.message) "assets:write") }
      else st
    let st2 :=
      if itemOk host backend siteId i then
        { st1 with deleted := insertIfAbsent st1.deleted i }
      else
        { st1 with failed := st1.failed ++ [i] }
    performDeleteLoop host backend siteId rest st2

/-- What one performDelete run leaves behind: the recorded sets, the
failure categories and the reconciled image list. -/
structure DeleteRun where
  deleted : List String
  failed : List String
  authFailed : Bool
  scopeFailed : Bool
  images : List ImageRow

/-- performDelete (App.tsx, lines 654-773): an empty selection returns at
once; otherwise run the loop over the selected ids with the trimmed
Designer site id, then drop every deleted id from the previous image
list. -/
def performDelete (host : DeleteHost)
    (backend : String → String → Option ApiErr) (siteIdRaw : String)
    (prevImages : List ImageRow) (selected : List String) : DeleteRun :=
  if selected.isEmpty then
    { deleted := [], failed := [], authFailed := false, scopeFailed := false,
      images := prevImages }
  else
    let siteId := jsTrim siteIdRaw
    let st := performDeleteLoop host backend siteId selected
      { deleted := [], failed := [], authFailed := false, scopeFailed := false }
    { deleted := st.deleted, failed := st.failed,
      authFailed := st.authFailed, scopeFailed := st.scopeFailed,
      images := prevImages.filter (fun img => ¬ img.id ∈ st.deleted) }

-- -----------------------------------------------------------------
-- Concrete sessions used as counterexamples and witnesses
-- -----------------------------------------------------------------

/-- A session whose single site entry carries the all-whitespace token
" ": a non-empty access-token string that the backend trims away. -/
def blankTokenSession : SessionState :=
  { accessToken := none
    authorizedSites := some [("s1",
      { siteId := "s1", siteName := none, accessToken := some " ",
        scopes := none, firstSeenAt := 0, lastSeenAt := 0 })] }

/-- A session holding a global OAuth token and an empty site map. -/
def globalTokenOnlySession : SessionState :=
  { accessToken := some "token123", authorizedSites := some [] }

/-- A session with one fully authorized site s1. -/
def oneSiteSession : SessionState :=
  { accessToken := none
    authorizedSites := some [("s1",
      { siteId := "s1", siteName := some "My Site", accessToken := some "tok",
        scopes := some "assets:write", firstSeenAt := 0, lastSeenAt := 0 })] }

/-- A session with one fully authorized site sA (kept separate so that
each claim has its own concrete input). -/
def oneSiteSessionA : SessionState :=
  { accessToken := none
    authorizedSites := some [("sA",
      { siteId := "sA", siteName := some "Site A", accessToken := some "tokA",
        scopes := none, firstSeenAt := 0, lastSeenAt := 0 })] }

/-- A session whose map misses the field entirely (authorizedSites was
never set), but which carries a global token. -/
def unsetMapSession : SessionState :=
  { accessToken := some "tok", authorizedSites := none }

-- -----------------------------------------------------------------
-- C1: the authenticated flag of GET /api/auth/status
-- -----------------------------------------------------------------

/-- C1 (counterexample): the claim says a session with at least one site
entry whose token is a non-empty string is reported authenticated.  The
session whose single entry carries the non-empty token " " is reported
authenticated:false, because hasAnyAuthorization trims the token before
testing it. -/
theorem c1_blank_token_counterexample :
    (authStatusHandler blankTokenSession).2.authenticated = false ∧
    (" " : String) ≠ "" := by
  decide

/-- C1 (amended): GET /api/auth/status reports authenticated:true exactly
when at least one entry of the session's site map carries a token that is
non-blank, i.e. non-empty after trimming whitespace; in particular a
session with an empty or missing site map, or one holding only a global
OAuth access token with no site entry, is reported
authenticated:false. -/
theorem c1_status_authenticated_iff (s : SessionState) :
    (authStatusHandler s).2.authenticated = true ↔
      ∃ e ∈ sitesMapOf s, jsTrim (jsStr e.2.accessToken) ≠ "" := by
  cases h : s.authorizedSites with
  | none =>
    simp [authStatusHandler, ensureAuthorizedSites, hasAnyAuthorization,
      sitesMapOf, h]
  | some m =>
    cases m with
    | nil =>
      simp [authStatusHandler, ensureAuthorizedSites, hasAnyAuthorization,
        sitesMapOf, h]
    | cons a t =>
      simp [authStatusHandler, ensureAuthorizedSites, hasAnyAuthorization,
        sitesMapOf, h, List.any_eq_true]

-- -----------------------------------------------------------------
-- C9: response shape and session frame of GET /api/auth/status
-- -----------------------------------------------------------------

/-- C9 (counterexample): the claim says handling GET /api/auth/status
leaves every session unchanged; on a session whose authorizedSites field
was never set, the handler initializes the field to an empty map, so the
stored session changes. -/
theorem c9_status_initializes_map_counterexample :
    (authStatusHandler unsetMapSession).1 ≠ unsetMapSession := by
  decide

/-- C9 (amended): GET /api/auth/status returns the authenticated flag,
the entry count of the site map and its key list; its only session write
is initializing a missing authorizedSites field to the empty map, so any
session that already has the field is left unchanged. -/
theorem c9_status_response_and_frame (s : SessionState) :
    (authStatusHandler s).2 =
      { authenticated := hasAnyAuthorization s
        authorizedSitesCount := (sitesMapOf s).length
        siteIds := (sitesMapOf s).map Prod.fst } ∧
    (authStatusHandler s).1 = { s with authorizedSites := some (sitesMapOf s) } ∧
    (s.authorizedSites ≠ none → (authStatusHandler s).1 = s) := by
  obtain ⟨tok, os⟩ := s
  cases os with
  | none =>
    refine ⟨?_, ?_, fun hc => absurd rfl hc⟩ <;>
      simp [authStatusHandler, ensureAuthorizedSites, hasAnyAuthorization,
        sitesMapOf]
  | some m =>
    refine ⟨?_, ?_, fun _ => ?_⟩ <;>
      simp [authStatusHandler, ensureAuthorizedSites, sitesMapOf]

/-- C9 (witness): on the concrete one-site session, which has the field
set, the handler leaves the session unchanged. -/
theorem c9_status_frame_witness :
    oneSiteSessionA.authorizedSites ≠ none ∧
    (authStatusHandler oneSiteSessionA).1 = oneSiteSessionA :=
  ⟨by decide, (c9_status_response_and_frame oneSiteSessionA).2.2 (by decide)⟩

-- -----------------------------------------------------------------
-- C2: DELETE for a site id absent from the session map
-- -----------------------------------------------------------------

/-- C2 (counterexample): the claim says every session gets 403 for an
unknown site id, regardless of a global access token.  A session holding
a global token but no authorized site fails the requireAuth gate first
and gets 401, not 403. -/
theorem c2_unauthenticated_counterexample :
    (deleteAssetRoute (fun _ _ => none) globalTokenOnlySession
      "site1" "asset1").2.status = 401 ∧ (401 : Nat) ≠ 403 := by
  decide

/-- C2 (amended): for a session that passes the requireAuth gate (some
site entry has a non-blank token) and non-blank path parameters, DELETE
for a trimmed site id that is not a key of the session's site map
responds 403 — regardless of the global session token, which is not
consulted before the 403 check. -/
theorem c2_unknown_site_403 (ext : String → String → Option Nat)
    (s : SessionState) (siteIdRaw assetIdRaw : String)
    (hauth : hasAnyAuthorization s = true)
    (hsid : jsTrim siteIdRaw ≠ "") (haid : jsTrim assetIdRaw ≠ "")
    (hmiss : (sitesMapOf s).lookup (jsTrim siteIdRaw) = none) :
    (deleteAssetRoute ext s siteIdRaw assetIdRaw).2.status = 403 := by
  cases h : s.authorizedSites with
  | none =>
    exfalso
    rw [hasAnyAuthorization, h] at hauth
    exact Bool.false_ne_true hauth
  | some m =>
    have hm : sitesMapOf s = m := by simp [sitesMapOf, h]
    rw [hm] at hmiss
    simp [deleteAssetRoute, hauth, hsid, haid, ensureAuthorizedSites, h, hmiss]

/-- C2 (witness): a session authorized for sA only, asked to delete an
asset of site sB, gets 403 even though a global token could resolve. -/
theorem c2_unknown_site_403_witness :
    hasAnyAuthorization oneSiteSessionA = true ∧
    (deleteAssetRoute (fun _ _ => none) oneSiteSessionA "sB" "x1").2.status = 403 :=
  ⟨by decide,
   c2_unknown_site_403 (fun _ _ => none) oneSiteSessionA "sB" "x1"
     (by decide) (by decide) (by decide) (by decide)⟩

-- -----------------------------------------------------------------
-- C3: the success path of DELETE /api/sites/:siteId/assets/:assetId
-- -----------------------------------------------------------------

/-- C3 (code bug): on a session fully authorized for s1 and valid path
parameters, the claim (and the spec, and the route's own comment) say
the handler calls the external asset-delete endpoint with that site's
token and returns 204.  The webflowApi object exported by webflow.js has
no assets member, so webflowApi.assets.delete throws a TypeError; the
request ends as a generic 500 and no external delete call is ever made,
whatever the external endpoint would have answered. -/
theorem c3_delete_endpoint_crashes :
    ∀ ext : String → String → Option Nat,
      (deleteAssetRoute ext oneSiteSession "s1" "a1").2.status = 500 ∧
      (deleteAssetRoute ext oneSiteSession "s1" "a1").2.extDeleteCalls = [] ∧
      webflowApi.hasAssetsDelete = false := by
  intro ext
  exact ⟨rfl, rfl, rfl⟩

-- -----------------------------------------------------------------
-- C6: scope merging for the OAuth authorize URL
-- -----------------------------------------------------------------

/-- C6 (counterexample): the claim says the merged scope list is
deduplicated for every pair of inputs.  mergeScopes only skips provided
scopes that equal a required one; a scope repeated inside the provided
list is kept twice. -/
theorem c6_duplicate_scope_counterexample :
    mergeScopes "a,b" "b,c,c" = "a b c c" ∧
    ¬ (mergeScopesList "a,b" "b,c,c").Nodup := by
  decide

/-- C6 (amended): the merged list is the required scopes first, in their
original order, followed by each provided scope not among the required
ones, joined with single spaces; when the required and the provided scope
lists are each duplicate-free the result is duplicate-free, and required
"a,b" with provided "b,c" yields "a b c". -/
theorem c6_scope_merge (r p : String)
    (hr : (splitScopes r).Nodup) (hp : (splitScopes p).Nodup) :
    mergeScopesList r p =
      splitScopes r ++ (splitScopes p).filter (fun sc => ¬ sc ∈ splitScopes r) ∧
    (mergeScopesList r p).Nodup ∧
    mergeScopes r p = " ".intercalate (mergeScopesList r p) ∧
    mergeScopes "a,b" "b,c" = "a b c" := by
  refine ⟨rfl, ?_, rfl, by decide⟩
  refine List.Nodup.append hr (hp.filter _) ?_
  intro a ha hb
  have := (List.mem_filter.mp hb).2
  simp only [decide_eq_true_eq] at this
  exact this ha

/-- C6 (witness): the amended merge theorem at the concrete pair of the
spec example. -/
theorem c6_scope_merge_witness :
    ((splitScopes "a,b").Nodup ∧ (splitScopes "b,c").Nodup) ∧
    mergeScopes "a,b" "b,c" = "a b c" :=
  ⟨⟨by decide, by decide⟩,
   (c6_scope_merge "a,b" "b,c" (by decide) (by decide)).2.2.2⟩

-- -----------------------------------------------------------------
-- C8: the select-all toggle
-- -----------------------------------------------------------------

/-- Helper: a row listed among the unused images is an unused row of the
scan result, so its id is one of the unused ids. -/
theorem allUnusedIds_ne_empty_of_listed {images : List ImageRow} {query : String}
    (h : listedUnused images query ≠ []) : allUnusedIds images ≠ ∅ := by
  obtain ⟨img, hmem⟩ := List.exists_mem_of_ne_nil _ h
  have hbase : img ∈ images.filter ImageRow.isUnused := by
    simp only [listedUnused] at hmem
    split at hmem
    · exact hmem
    · exact List.mem_of_mem_filter hmem
  have hid : img.id ∈ allUnusedIds images := by
    simp only [allUnusedIds, List.mem_toFinset, List.mem_map]
    exact ⟨img, hbase, rfl⟩
  intro hempty
  rw [hempty] at hid
  exact absurd hid (Finset.not_mem_empty _)

/-- C8 (confirmed): when at least one unused image is listed, toggling
the select-all control from the empty selection selects exactly the set
of all unused asset ids, and toggling it again empties the selection. -/
theorem c8_toggle_select_all (images : List ImageRow) (query : String)
    (h : listedUnused images query ≠ []) :
    toggleSelectAllUnused images ∅ = allUnusedIds images ∧
    toggleSelectAllUnused images (toggleSelectAllUnused images ∅) = ∅ := by
  have hne : allUnusedIds images ≠ ∅ := allUnusedIds_ne_empty_of_listed h
  have h1 : toggleSelectAllUnused images ∅ = allUnusedIds images := by
    unfold toggleSelectAllUnused
    rw [if_neg hne, if_neg (fun hsub => hne (Finset.subset_empty.mp hsub))]
  refine ⟨h1, ?_⟩
  rw [h1]
  unfold toggleSelectAllUnused
  rw [if_neg hne, if_pos (Finset.Subset.refl _)]

/-- One unused row, used as the concrete input of the C8 witness. -/
def c8Images : List ImageRow :=
  [{ id := "img1", name := "n", url := "", mimeType := "image/png",
     isUnused := true }]

/-- C8 (witness): a one-row result with an unused image, no search query:
toggling once selects that id, toggling twice empties the selection. -/
theorem c8_toggle_select_all_witness :
    listedUnused c8Images "" ≠ [] ∧
    (toggleSelectAllUnused c8Images ∅ = allUnusedIds c8Images ∧
     toggleSelectAllUnused c8Images (toggleSelectAllUnused c8Images ∅) = ∅) :=
  ⟨by decide, c8_toggle_select_all c8Images "" (by decide)⟩

-- -----------------------------------------------------------------
-- C5 / C10: the delete pipeline
-- -----------------------------------------------------------------

/-- Membership in a JS Set after one add. -/
theorem mem_insertIfAbsent (l : List String) (x y : String) :
    y ∈ insertIfAbsent l x ↔ y ∈ l ∨ y = x := by
  unfold insertIfAbsent
  by_cases hx : x ∈ l
  · rw [if_pos hx]
    constructor
    · exact Or.inl
    · rintro (hy | rfl)
      · exact hy
      · exact hx
  · rw [if_neg hx]
    simp

/-- The failure-category bookkeeping of one backend leg never touches
the deleted or failed lists. -/
theorem performDeleteLoop_step_lists
    (backend : String → String → Option ApiErr) (siteId i : String)
    (st : DelState) :
    ((if siteId ≠ "" then
        match backend siteId i with
        | none => st
        | some e =>
          { st with
            authFailed := st.authFailed || (e.status == 401)
            scopeFailed := st.scopeFailed ||
              (e.status == 403 || strIncludes (jsToLower e.message) "scope" ||
                strIncludes (jsToLower e.message) "assets:write") }
      else st).deleted = st.deleted) ∧
    ((if siteId ≠ "" then
        match backend siteId i with
        | none => st
        | some e =>
          { st with
            authFailed := st.authFailed || (e.status == 401)
            scopeFailed := st.scopeFailed ||
              (e.status == 403 || strIncludes (jsToLower e.message) "scope" ||
                strIncludes (jsToLower e.message) "assets:write") }
      else st).failed = st.failed) := by
  constructor
  · split
    · split <;> rfl
    · rfl
  · split
    · split <;> rfl
    · rfl

/-- An id is in the deleted set after the loop iff it already was, or it
is one of the processed ids and its item succeeded. -/
theorem performDeleteLoop_deleted_mem (host : DeleteHost)
    (backend : String → String → Option ApiErr) (siteId : String) :
    ∀ (l : List String) (st : DelState) (x : String),
      x ∈ (performDeleteLoop host backend siteId l st).deleted ↔
        x ∈ st.deleted ∨ (x ∈ l ∧ itemOk host backend siteId x = true) := by
  intro l
  induction l with
  | nil => intro st x; simp [performDeleteLoop]
  | cons i rest ih =>
    intro st x
    rw [performDeleteLoop, ih]
    have hlists := performDeleteLoop_step_lists backend siteId i st
    by_cases hok : itemOk host backend siteId i = true
    · rw [if_pos hok]
      simp only [hlists.1, mem_insertIfAbsent, List.mem_cons]
      constructor
      · rintro ((hd | rfl) | ⟨hl, ho⟩)
        · exact Or.inl hd
        · exact Or.inr ⟨Or.inl rfl, hok⟩
        · exact Or.inr ⟨Or.inr hl, ho⟩
      · rintro (hd | ⟨(rfl | hl), ho⟩)
        · exact Or.inl (Or.inl hd)
        · exact Or.inl (Or.inr rfl)
        · exact Or.inr ⟨hl, ho⟩
    · rw [if_neg hok]
      simp only [hlists.1, List.mem_cons]
      constructor
      · rintro (hd | ⟨hl, ho⟩)
        · exact Or.inl hd
        · exact Or.inr ⟨Or.inr hl, ho⟩
      · rintro (hd | ⟨(rfl | hl), ho⟩)
        · exact Or.inl hd
        · exact absurd ho hok
        · exact Or.inr ⟨hl, ho⟩

/-- An id is in the failed list after the loop iff it already was, or it
is one of the processed ids and its item failed both legs. -/
theorem performDeleteLoop_failed_mem (host : DeleteHost)
    (backend : String → String → Option ApiErr) (siteId : String) :
    ∀ (l : List String) (st : DelState) (x : String),
      x ∈ (performDeleteLoop host backend siteId l st).failed ↔
        x ∈ st.failed ∨ (x ∈ l ∧ itemOk host backend siteId x = false) := by
  intro l
  induction l with
  | nil => intro st x; simp [performDeleteLoop]
  | cons i rest ih =>
    intro st x
    rw [performDeleteLoop, ih]
    have hlists := performDeleteLoop_step_lists backend siteId i st
    by_cases hok : itemOk host backend siteId i = true
    · rw [if_pos hok]
      simp only [hlists.2, List.mem_cons]
      constructor
      · rintro (hf | ⟨hl, ho⟩)
        · exact Or.inl hf
        · exact Or.inr ⟨Or.inr hl, ho⟩
      · rintro (hf | ⟨(rfl | hl), ho⟩)
        · exact Or.inl hf
        · simp [hok] at ho
        · exact Or.inr ⟨hl, ho⟩
    · rw [if_neg hok]
      have hokf : itemOk host backend siteId i = false :=
        Bool.eq_false_iff.mpr hok
      simp only [hlists.2, List.mem_append, List.mem_cons, List.not_mem_nil,
        or_false]
      constructor
      · rintro ((hf | rfl) | ⟨hl, ho⟩)
        · exact Or.inl hf
        · exact Or.inr ⟨Or.inl rfl, hokf⟩
        · exact Or.inr ⟨Or.inr hl, ho⟩
      · rintro (hf | ⟨(rfl | hl), ho⟩)
        · exact Or.inl (Or.inl hf)
        · exact Or.inl (Or.inr rfl)
        · exact Or.inr ⟨hl, ho⟩

/-- C5 (confirmed): after a delete pipeline run over a selection drawn
from the listed images, the reconciled list contains no id recorded as
deleted; every id recorded as failed is still present; an id is recorded
as deleted exactly when it was selected and its backend delete or its
best-effort Designer removal succeeded; and every selected id is
processed to completion, ending in exactly one of the two records. -/
theorem c5_delete_pipeline (host : DeleteHost)
    (backend : String → String → Option ApiErr) (siteIdRaw : String)
    (prevImages : List ImageRow) (selected : List String)
    (hsub : ∀ i ∈ selected, ∃ img ∈ prevImages, img.id = i) :
    (∀ img ∈ (performDelete host backend siteIdRaw prevImages selected).images,
      ¬ img.id ∈ (performDelete host backend siteIdRaw prevImages selected).deleted) ∧
    (∀ i ∈ (performDelete host backend siteIdRaw prevImages selected).failed,
      ∃ img ∈ (performDelete host backend siteIdRaw prevImages selected).images,
        img.id = i) ∧
    (∀ i, i ∈ (performDelete host backend siteIdRaw prevImages selected).deleted ↔
      i ∈ selected ∧ itemOk host backend (jsTrim siteIdRaw) i = true) ∧
    (∀ i, i ∈ selected ↔
      (i ∈ (performDelete host backend siteIdRaw prevImages selected).deleted ∨
       i ∈ (performDelete host backend siteIdRaw prevImages selected).failed)) := by
  by_cases hsel : selected.isEmpty
  · have hnil : selected = [] := List.isEmpty_iff.mp hsel
    subst hnil
    simp [performDelete]
  · have hdel : ∀ i,
        i ∈ (performDelete host backend siteIdRaw prevImages selected).deleted ↔
          i ∈ selected ∧ itemOk host backend (jsTrim siteIdRaw) i = true := by
      intro i
      simp only [performDelete, if_neg hsel]
      rw [performDeleteLoop_deleted_mem]
      simp
    have hfail : ∀ i,
        i ∈ (performDelete host backend siteIdRaw prevImages selected).failed ↔
          i ∈ selected ∧ itemOk host backend (jsTrim siteIdRaw) i = false := by
      intro i
      simp only [performDelete, if_neg hsel]
      rw [performDeleteLoop_failed_mem]
      simp
    have himg : ∀ img,
        img ∈ (performDelete host backend siteIdRaw prevImages selected).images ↔
          img ∈ prevImages ∧
            ¬ img.id ∈ (performDelete host backend siteIdRaw prevImages selected).deleted := by
      intro img
      simp only [performDelete, if_neg hsel]
      simp [List.mem_filter]
    refine ⟨?_, ?_, hdel, ?_⟩
    · intro img hm
      exact ((himg img).mp hm).2
    · intro i hf
      obtain ⟨hisel, hfalse⟩ := (hfail i).mp hf
      obtain ⟨img, himem, hid⟩ := hsub i hisel
      refine ⟨img, (himg img).mpr ⟨himem, ?_⟩, hid⟩
      intro hdm
      have := ((hdel img.id).mp hdm).2
      rw [hid] at this
      rw [this] at hfalse
      exact Bool.noConfusion hfalse
    · intro i
      constructor
      · intro hisel
        by_cases hok : itemOk host backend (jsTrim siteIdRaw) i = true
        · exact Or.inl ((hdel i).mpr ⟨hisel, hok⟩)
        · exact Or.inr ((hfail i).mpr ⟨hisel, Bool.eq_false_iff.mpr hok⟩)
      · rintro (hd | hf)
        · exact ((hdel i).mp hd).1
        · exact ((hfail i).mp hf).1

/-- A Designer host that enumerates no assets and has neither
getAssetById nor removeAsset, used as the C5 witness input. -/
def c5Host : DeleteHost :=
  { enumerated := [], hasGetAssetById := false,
    getAssetByIdFn := fun _ => none, hasRemoveAsset := false }

/-- A backend on which every delete call succeeds, for the C5 witness. -/
def c5Backend : String → String → Option ApiErr := fun _ _ => none

/-- The previously listed image of the C5 witness. -/
def c5Prev : List ImageRow :=
  [{ id := "x1", name := "pic", url := "", mimeType := "image/png",
     isUnused := true }]

/-- C5 (witness): one selected id drawn from the listed images, backend
succeeding: the deleted record is exactly the successfully processed
selection. -/
theorem c5_delete_pipeline_witness :
    (∀ i ∈ ["x1"], ∃ img ∈ c5Prev, img.id = i) ∧
    (∀ i, i ∈ (performDelete c5Host c5Backend "s1" c5Prev ["x1"]).deleted ↔
      i ∈ ["x1"] ∧ itemOk c5Host c5Backend (jsTrim "s1") i = true) :=
  ⟨by decide,
   (c5_delete_pipeline c5Host c5Backend "s1" c5Prev ["x1"] (by decide)).2.2.1⟩

/-- C10 (confirmed): a selected id whose asset object cannot be resolved
(absent from the enumeration, and getAssetById unavailable or failing)
makes the local-removal step return success, so the id is recorded as
deleted whatever the backend leg did. -/
theorem c10_unresolvable_asset_counts_deleted (host : DeleteHost)
    (backend : String → String → Option ApiErr) (siteIdRaw : String)
    (prevImages : List ImageRow) (selected : List String) (i : String)
    (h1 : i ∈ selected)
    (h2 : handleLookup host.enumerated i = none)
    (h3 : host.hasGetAssetById = false ∨ host.getAssetByIdFn i = none) :
    designerLegOk host i = true ∧
    i ∈ (performDelete host backend siteIdRaw prevImages selected).deleted := by
  have hleg : designerLegOk host i = true := by
    unfold designerLegOk tryRemoveFromDesigner
    rw [h2]
    rcases h3 with h3 | h3
    · simp [h3]
    · by_cases hg : host.hasGetAssetById <;> simp [hg, h3]
  refine ⟨hleg, ?_⟩
  have hok : itemOk host backend (jsTrim siteIdRaw) i = true := by
    unfold itemOk
    rw [hleg, Bool.or_true]
  have hnn : selected ≠ [] := List.ne_nil_of_mem h1
  have hne : ¬ selected.isEmpty = true := fun hc => hnn (List.isEmpty_iff.mp hc)
  simp only [performDelete, if_neg hne]
  rw [performDeleteLoop_deleted_mem]
  exact Or.inr ⟨h1, hok⟩

/-- The Designer host of the C10 witness: nothing enumerated, no
getAssetById capability. -/
def c10Host : DeleteHost :=
  { enumerated := [], hasGetAssetById := false,
    getAssetByIdFn := fun _ => none, hasRemoveAsset := false }

/-- The backend of the C10 witness: every delete call fails with 500. -/
def c10Backend : String → String → Option ApiErr :=
  fun _ _ => some { status := 500, message := "boom" }

/-- C10 (witness): a ghost id that resolves to no asset object is
recorded as deleted although the backend delete call failed. -/
theorem c10_unresolvable_asset_witness :
    ("ghost1" ∈ ["ghost1"] ∧ handleLookup c10Host.enumerated "ghost1" = none ∧
      c10Host.hasGetAssetById = false) ∧
    "ghost1" ∈ (performDelete c10Host c10Backend "s9" [] ["ghost1"]).deleted :=
  ⟨⟨by decide, by decide, by decide⟩,
   (c10_unresolvable_asset_counts_deleted c10Host c10Backend "s9" [] ["ghost1"]
     "ghost1" (by decide) (by decide) (Or.inl (by decide))).2⟩

-- -----------------------------------------------------------------
-- C7: ordering of the GET /api/sites response
-- -----------------------------------------------------------------

/-- The ordering the claim asserts: ascending by the display-name key,
with the site id as tiebreaker whenever two keys compare equal. -/
def nameThenIdSorted (cmp : String → String → Ordering) (rows : List SiteRow) : Prop :=
  rows.Pairwise (fun a b =>
    cmp (sortKey a) (sortKey b) = Ordering.lt ∨
    (cmp (sortKey a) (sortKey b) = Ordering.eq ∧ cmp a.id b.id ≠ Ordering.gt))

/-- A session authorized for two sites with the same display name, the
one with the larger id stored first. -/
def equalNamesSession : SessionState :=
  { accessToken := none
    authorizedSites := some
      [("zzz", { siteId := "zzz", siteName := some "Same",
                 accessToken := some "tok", scopes := none,
                 firstSeenAt := 0, lastSeenAt := 0 }),
       ("aaa", { siteId := "aaa", siteName := some "Same",
                 accessToken := some "tok", scopes := none,
                 firstSeenAt := 0, lastSeenAt := 0 })] }

/-- C7 (counterexample): with two sites of equal display name, the
handler keeps the session-map insertion order zzz, aaa (the comparator
never consults the id when the name keys are equal, and the sort is
stable), so the response violates the claimed id tiebreak order. -/
theorem c7_no_id_tiebreaker_counterexample :
    (sitesHandler localeCompareModel equalNamesSession).2 =
      some [{ id := "zzz", displayName := some "Same", shortName := some "Same" },
            { id := "aaa", displayName := some "Same", shortName := some "Same" }] ∧
    ¬ nameThenIdSorted localeCompareModel
      [{ id := "zzz", displayName := some "Same", shortName := some "Same" },
       { id := "aaa", displayName := some "Same", shortName := some "Same" }] := by
  refine ⟨by decide, ?_⟩
  unfold nameThenIdSorted
  decide

/-- C7 (amended): for any comparator that is a total preorder (as
localeCompare is), GET /api/sites behind a passing auth gate answers a
permutation of the session's site rows that is sorted by the comparator
on the displayName-or-id key alone; equal keys keep the stable sort
order of the session map, and the id is never used as a tiebreaker. -/
theorem c7_sites_sorted_by_name_key (cmp : String → String → Ordering)
    (s : SessionState)
    (hauth : hasAnyAuthorization s = true)
    (htrans : ∀ x y z : String, cmp x y ≠ Ordering.gt → cmp y z ≠ Ordering.gt →
      cmp x z ≠ Ordering.gt)
    (htotal : ∀ x y : String, cmp x y ≠ Ordering.gt ∨ cmp y x ≠ Ordering.gt) :
    ∃ rows, (sitesHandler cmp s).2 = some rows ∧
      rows.Perm (siteRowsOf (sitesMapOf s)) ∧
      rows.Pairwise (fun a b => cmp (sortKey a) (sortKey b) ≠ Ordering.gt) := by
  cases h : s.authorizedSites with
  | none =>
    exfalso
    rw [hasAnyAuthorization, h] at hauth
    exact Bool.false_ne_true hauth
  | some m =>
    have hm : sitesMapOf s = m := by simp [sitesMapOf, h]
    haveI htr : IsTrans SiteRow (fun a b => cmp (sortKey a) (sortKey b) ≠ Ordering.gt) :=
      ⟨fun a b c hab hbc => htrans _ _ _ hab hbc⟩
    haveI hto : IsTotal SiteRow (fun a b => cmp (sortKey a) (sortKey b) ≠ Ordering.gt) :=
      ⟨fun a b => htotal _ _⟩
    refine ⟨List.insertionSort
      (fun a b => cmp (sortKey a) (sortKey b) ≠ Ordering.gt) (siteRowsOf m), ?_, ?_, ?_⟩
    · simp [sitesHandler, hauth, ensureAuthorizedSites, h]
    · rw [hm]
      exact List.perm_insertionSort _ (siteRowsOf m)
    · exact List.sorted_insertionSort _ (siteRowsOf m)

/-- C7 (witness): the amended ordering theorem at the trivial comparator
that declares all keys equal, on a one-site session. -/
theorem c7_sites_sorted_witness :
    hasAnyAuthorization oneSiteSession = true ∧
    ∃ rows, (sitesHandler (fun _ _ => Ordering.eq) oneSiteSession).2 = some rows ∧
      rows.Perm (siteRowsOf (sitesMapOf oneSiteSession)) ∧
      rows.Pairwise (fun a b =>
        (fun _ _ => Ordering.eq) (sortKey a) (sortKey b) ≠ Ordering.gt) :=
  ⟨by decide,
   c7_sites_sorted_by_name_key (fun _ _ => Ordering.eq) oneSiteSession
     (by decide) (fun _ _ _ h1 _ => h1)
     (fun _ _ => Or.inl (fun hc => Ordering.noConfusion hc))⟩

-- -----------------------------------------------------------------
-- C4: the sweep classifies exactly by reference detection
-- -----------------------------------------------------------------

/-- The index markUsed resolves an id to, with the falsy-id guard of
markUsed applied. -/
def markHits (images : List AssetData) (assetId : String) : Option Nat :=
  if assetId = "" then none else imageIdLookup images assetId

/-- An id that belongs to no image resolves to no index. -/
theorem imageIdLookupAux_none {c : String} :
    ∀ (imgs : List AssetData) (k : Nat), ¬ c ∈ imgs.map AssetData.id →
      imageIdLookupAux c imgs k = none := by
  intro imgs
  induction imgs with
  | nil => intro k _; rfl
  | cons a rest ih =>
    intro k hc
    simp only [List.map_cons, List.mem_cons, not_or] at hc
    rw [imageIdLookupAux, ih (k + 1) hc.2, if_neg (fun h => hc.1 h.symm)]

/-- A resolved index points at an image carrying the looked-up id. -/
theorem imageIdLookupAux_sound {c : String} :
    ∀ (imgs : List AssetData) (k j : Nat), imageIdLookupAux c imgs k = some j →
      ∃ i img, imgs.get? i = some img ∧ img.id = c ∧ j = k + i := by
  intro imgs
  induction imgs with
  | nil => intro k j h; exact absurd h (by simp [imageIdLookupAux])
  | cons a rest ih =>
    intro k j h
    rw [imageIdLookupAux] at h
    cases hr : imageIdLookupAux c rest (k + 1) with
    | some j2 =>
      rw [hr] at h
      injection h with h
      obtain ⟨i, img, hi, hid, hj⟩ := ih (k + 1) j2 hr
      refine ⟨i + 1, img, by simpa using hi, hid, ?_⟩
      omega
    | none =>
      rw [hr] at h
      by_cases hac : a.id = c
      · rw [if_pos hac] at h
        injection h with h
        exact ⟨0, a, List.get?_cons_zero, hac, by omega⟩
      · rw [if_neg hac] at h
        exact absurd h (by simp)

/-- With duplicate-free image ids, the id of the image at index i
resolves to exactly that index. -/
theorem imageIdLookupAux_complete :
    ∀ (imgs : List AssetData), (imgs.map AssetData.id).Nodup →
      ∀ (i : Nat) (img : AssetData), imgs.get? i = some img →
      ∀ (k : Nat), imageIdLookupAux img.id imgs k = some (k + i) := by
  intro imgs
  induction imgs with
  | nil => intro _ i img hi; simp at hi
  | cons a rest ih =>
    intro hnd i img hi k
    simp only [List.map_cons, List.nodup_cons] at hnd
    cases i with
    | zero =>
      rw [List.get?_cons_zero] at hi
      injection hi with hi
      subst hi
      rw [imageIdLookupAux, imageIdLookupAux_none rest (k + 1) hnd.1]
      simp
    | succ i2 =>
      rw [List.get?_cons_succ] at hi
      rw [imageIdLookupAux, ih hnd.2 i2 img hi (k + 1)]
      have harith : k + 1 + i2 = k + (i2 + 1) := by omega
      rw [harith]

/-- With duplicate-free non-blank ids, markUsed hits index i exactly for
the id of the image stored there. -/
theorem markHits_eq_some_iff {images : List AssetData}
    (hnd : (images.map AssetData.id).Nodup) {i : Nat} {img : AssetData}
    (hi : images.get? i = some img) (hne : img.id ≠ "") (c : String) :
    markHits images c = some i ↔ c = img.id := by
  constructor
  · intro h
    unfold markHits at h
    by_cases hc : c = ""
    · rw [if_pos hc] at h
      exact absurd h (by simp)
    · rw [if_neg hc] at h
      obtain ⟨i2, img2, hi2, hid2, hj⟩ := imageIdLookupAux_sound images 0 i h
      have hii : i2 = i := by omega
      subst hii
      rw [hi] at hi2
      injection hi2 with hi2
      rw [← hid2, hi2]
  · rintro rfl
    unfold markHits
    rw [if_neg hne]
    have := imageIdLookupAux_complete images hnd i img hi 0
    simpa using this

/-- An index is marked after a run of markUsed calls iff it was marked
before or some call resolves to it. -/
theorem foldl_markUsed_mem (images : List AssetData) :
    ∀ (calls : List String) (marked : List Nat) (i : Nat),
      i ∈ calls.foldl (markUsed images) marked ↔
        i ∈ marked ∨ ∃ c ∈ calls, markHits images c = some i := by
  intro calls
  induction calls with
  | nil => intro marked i; simp
  | cons c cs ih =>
    intro marked i
    rw [List.foldl_cons, ih]
    have hstep : i ∈ markUsed images marked c ↔
        i ∈ marked ∨ markHits images c = some i := by
      unfold markUsed markHits
      by_cases hc : c = ""
      · simp [hc]
      · rw [if_neg hc, if_neg hc]
        cases hl : imageIdLookup images c with
        | none => simp
        | some j =>
          show i ∈ (if j ∈ marked then marked else j :: marked) ↔
            i ∈ marked ∨ some j = some i
          by_cases hj : j ∈ marked
          · rw [if_pos hj]
            constructor
            · exact Or.inl
            · rintro (h | h)
              · exact h
              · injection h with h
                rw [← h]
                exact hj
          · rw [if_neg hj]
            simp only [List.mem_cons, Option.some_inj]
            constructor
            · rintro (rfl | h)
              · exact Or.inr rfl
              · exact Or.inl h
            · rintro (h | rfl)
              · exact Or.inr h
              · exact Or.inl rfl
    rw [hstep, List.exists_mem_cons_iff]
    tauto

/-- The scan result row at index i carries the image fields and the
negated mark of that index. -/
theorem mkRows_get? (marked : List Nat) :
    ∀ (imgs : List AssetData) (k i : Nat) (img : AssetData),
      imgs.get? i = some img →
      (mkRows marked k imgs).get? i =
        some { id := img.id, name := img.name, url := img.url,
               mimeType := img.mimeType,
               isUnused := decide (¬ (k + i) ∈ marked) } := by
  intro imgs
  induction imgs with
  | nil => intro k i img h; simp at h
  | cons a rest ih =>
    intro k i img h
    cases i with
    | zero =>
      rw [List.get?_cons_zero] at h
      injection h with h
      subst h
      rw [mkRows]
      simp
    | succ i2 =>
      rw [List.get?_cons_succ] at h
      rw [mkRows, List.get?_cons_succ, ih (k + 1) i2 img h]
      have harith : k + 1 + i2 = k + (i2 + 1) := by omega
      rw [harith]

/-- A truthy-id code path calls markUsed with the image id iff the
optional field holds exactly that (non-blank) id. -/
theorem mem_optIdCalls_iff {img : AssetData} (hne : img.id ≠ "")
    (o : Option String) : img.id ∈ optIdCalls o ↔ o = some img.id := by
  cases o with
  | none => simp [optIdCalls]
  | some v =>
    show img.id ∈ (if v = "" then [] else [v]) ↔ some v = some img.id
    by_cases hv : v = ""
    · subst hv
      rw [if_pos rfl]
      simp only [List.not_mem_nil, false_iff, Option.some_inj]
      exact fun h => hne h.symm
    · rw [if_neg hv]
      simp [eq_comm]

/-- Characterization of a truthy lookup hit. -/
theorem truthyOpt_eq_some_iff (o : Option String) (v : String) :
    truthyOpt o = some v ↔ o = some v ∧ v ≠ "" := by
  cases o with
  | none => simp [truthyOpt]
  | some i =>
    show (if i = "" then none else some i) = some v ↔ some i = some v ∧ v ≠ ""
    by_cases hi : i = ""
    · subst hi
      rw [if_pos rfl]
      constructor
      · intro h
        exact Option.noConfusion h
      · rintro ⟨h1, h2⟩
        injection h1 with h1
        exact absurd h1.symm h2
    · rw [if_neg hi]
      constructor
      · intro h
        injection h with h
        exact ⟨by rw [h], by rw [← h]; exact hi⟩
      · exact fun h => h.1

/-- The page social-preview scan calls markUsed with the image id iff the
field mentions the image. -/
theorem mem_pageUrlCalls_iff {images : List AssetData} {img : AssetData}
    (hne : img.id ≠ "") (o : Option String) :
    img.id ∈ pageUrlCalls images o ↔ PageUrlMentions images o img := by
  cases o with
  | none => simp [pageUrlCalls, PageUrlMentions]
  | some u =>
    show img.id ∈ (if u = "" then [] else optIdCalls (truthyOpt (urlLookup images u))) ↔
      PageUrlMentions images (some u) img
    unfold PageUrlMentions
    by_cases hu : u = ""
    · subst hu
      rw [if_pos rfl]
      simp only [List.not_mem_nil, false_iff, not_exists]
      rintro u2 ⟨hu2, hne2, _⟩
      injection hu2 with hu2
      exact hne2 hu2.symm
    · rw [if_neg hu, mem_optIdCalls_iff hne, truthyOpt_eq_some_iff]
      constructor
      · rintro ⟨hl, _⟩
        exact ⟨u, rfl, hu, hl⟩
      · rintro ⟨u2, hu2, _, hl2⟩
        injection hu2 with hu2
        subst hu2
        exact ⟨hl2, hne⟩

/-- The style-payload scan calls markUsed with the image id iff the
payload mentions the image. -/
theorem mem_payloadCalls_iff {images : List AssetData} {img : AssetData}
    (himem : (imageIdLookup images img.id).isSome = true) (hne : img.id ≠ "")
    (payload : Option String) :
    img.id ∈ payloadCalls images payload ↔ PayloadMentions images payload img := by
  cases payload with
  | none => simp [payloadCalls, PayloadMentions]
  | some s =>
    show img.id ∈
        ((scanHexIds s).filter (fun tok => (imageIdLookup images tok).isSome) ++
          (scanUrls s).filterMap (fun u => truthyOpt (urlLookup images u))) ↔
      PayloadMentions images (some s) img
    unfold PayloadMentions
    simp only [List.mem_append, List.mem_filter, List.mem_filterMap]
    constructor
    · rintro (⟨hmem, _⟩ | ⟨u, hu, hf⟩)
      · exact ⟨s, rfl, Or.inl hmem⟩
      · obtain ⟨hl, _⟩ := (truthyOpt_eq_some_iff _ _).mp hf
        exact ⟨s, rfl, Or.inr ⟨u, hu, hl⟩⟩
    · rintro ⟨s2, hs2, hor⟩
      injection hs2 with hs2
      subst hs2
      rcases hor with hid | ⟨u, hu, hl⟩
      · exact Or.inl ⟨hid, by simpa using himem⟩
      · exact Or.inr ⟨u, hu, (truthyOpt_eq_some_iff _ _).mpr ⟨hl, hne⟩⟩


/-- One element scan calls markUsed with the image id iff the element
mentions the image. -/
theorem mem_elementCalls_iff {images : List AssetData} {img : AssetData}
    (himem : (imageIdLookup images img.id).isSome = true) (hne : img.id ≠ "")
    (el : ElementData) :
    img.id ∈ elementCalls images el ↔ ElementMentions images el img := by
  unfold elementCalls ElementMentions
  by_cases ht : el.typ = "Image" <;>
    simp [ht, List.mem_append, List.mem_flatMap, mem_optIdCalls_iff hne,
      mem_payloadCalls_iff himem hne]

/-- One page pass calls markUsed with the image id iff an element or a
social-preview field of that page mentions the image. -/
theorem mem_pageCalls_iff {images : List AssetData} {img : AssetData}
    (himem : (imageIdLookup images img.id).isSome = true) (hne : img.id ≠ "")
    (p : PageData) :
    img.id ∈ pageCalls images p ↔
      ((∃ el ∈ p.elements, ElementMentions images el img) ∨
       PageUrlMentions images p.ogImageUrl img ∨
       PageUrlMentions images p.searchImageUrl img) := by
  unfold pageCalls
  simp [List.mem_append, List.mem_flatMap, mem_elementCalls_iff himem hne,
    mem_pageUrlCalls_iff hne]

/-- The sweep calls markUsed with the image id iff the image is
referenced somewhere the sweep looks. -/
theorem mem_collectCalls_iff {doc : DocumentData} {img : AssetData}
    (himem : (imageIdLookup (imagesOf doc) img.id).isSome = true)
    (hne : img.id ≠ "") :
    img.id ∈ collectCalls doc ↔ Referenced doc img := by
  unfold collectCalls Referenced
  by_cases hg : doc.hasGetAllStyles <;>
    simp [hg, List.mem_append, List.mem_flatMap,
      mem_pageCalls_iff himem hne, mem_payloadCalls_iff himem hne]

/-- Image asset A of the spec example: bound to an Image element on
page 1. -/
def sweepAssetA : AssetData :=
  { id := "aaaaaaaaaaaaaaaaaaaaaaaa", name := "hero",
    url := "https://img.test/a.png", mimeType := "image/png" }

/-- Image asset B of the spec example: its 24-character hex id occurs
inside a style's serialized background-image property payload. -/
def sweepAssetB : AssetData :=
  { id := "bbbbbbbbbbbbbbbbbbbbbbbb", name := "bg",
    url := "https://img.test/b.png", mimeType := "image/png" }

/-- Image asset C of the spec example: it appears nowhere. -/
def sweepAssetC : AssetData :=
  { id := "cccccccccccccccccccccccc", name := "orphan",
    url := "https://img.test/c.png", mimeType := "image/png" }

/-- The serialized style property payload whose text contains asset B's
24-character hexadecimal id. -/
def sweepPayloadB : String :=
  "background-image: url(https://img.test/bbbbbbbbbbbbbbbbbbbbbbbb.png)"

/-- The spec example document: 2 pages, 3 image assets; A bound to an
Image element on page 1, B's id inside a style payload of an element on
page 2, C unreferenced. -/
def sweepExampleDoc : DocumentData :=
  { assets := [sweepAssetA, sweepAssetB, sweepAssetC]
    pages :=
      [{ switchOk := true
         elements := [{ typ := "Image", boundAssetId := some "aaaaaaaaaaaaaaaaaaaaaaaa",
                        stylesPayloads := [], stylePayload := none,
                        backgroundImageId := none }]
         ogImageUrl := none, searchImageUrl := none },
       { switchOk := true
         elements := [{ typ := "Div", boundAssetId := none,
                        stylesPayloads := [some sweepPayloadB], stylePayload := none,
                        backgroundImageId := none }]
         ogImageUrl := none, searchImageUrl := none }]
    hasGetAllStyles := true
    globalStyles := [] }

/-- C4 (confirmed): for any host document whose image assets have
duplicate-free non-blank ids, the sweep reports a result row per image
asset whose isUnused flag is true exactly when no image element, style
payload or page social-preview field references the asset; and on the
spec example document the sweep reports exactly one unused asset (C),
2 scanned pages and 2 detected references. -/
theorem c4_sweep_classification :
    (∀ (doc : DocumentData),
      ((imagesOf doc).map AssetData.id).Nodup →
      (∀ a ∈ imagesOf doc, a.id ≠ "") →
      ∀ (i : Nat) (img : AssetData), (imagesOf doc).get? i = some img →
        ∃ row, (runScan doc).images.get? i = some row ∧
          (row.isUnused = true ↔ ¬ Referenced doc img)) ∧
    unusedCount (runScan sweepExampleDoc) = 1 ∧
    unusedIds (runScan sweepExampleDoc) = ["cccccccccccccccccccccccc"] ∧
    (runScan sweepExampleDoc).meta.scannedPages = 2 ∧
    (runScan sweepExampleDoc).meta.detectedReferences = 2 := by
  refine ⟨?_, by decide, by decide, by decide, by decide⟩
  intro doc hnd hne i img hi
  have hneimg : img.id ≠ "" := hne img (List.get?_mem hi)
  have himem : (imageIdLookup (imagesOf doc) img.id).isSome = true := by
    unfold imageIdLookup
    rw [imageIdLookupAux_complete (imagesOf doc) hnd i img hi 0]
    rfl
  refine ⟨{ id := img.id, name := img.name, url := img.url,
            mimeType := img.mimeType,
            isUnused := decide (¬ (0 + i) ∈
              (collectCalls doc).foldl (markUsed (imagesOf doc)) []) }, ?_, ?_⟩
  · exact mkRows_get? _ (imagesOf doc) 0 i img hi
  · rw [decide_eq_true_iff]
    simp only [Nat.zero_add]
    rw [foldl_markUsed_mem]
    simp only [List.not_mem_nil, false_or]
    constructor
    · intro hniff href
      apply hniff
      exact ⟨img.id, (mem_collectCalls_iff himem hneimg).mpr href,
        (markHits_eq_some_iff hnd hi hneimg img.id).mpr rfl⟩
    · rintro hnref ⟨c, hc, hmark⟩
      have hcid : c = img.id := (markHits_eq_some_iff hnd hi hneimg c).mp hmark
      subst hcid
      exact hnref ((mem_collectCalls_iff himem hneimg).mp hc)

/-- C4 (witness): the classification theorem at the spec example
document, applied to asset C at index 2. -/
theorem c4_sweep_classification_witness :
    (((imagesOf sweepExampleDoc).map AssetData.id).Nodup ∧
      (∀ a ∈ imagesOf sweepExampleDoc, a.id ≠ "")) ∧
    ∃ row, (runScan sweepExampleDoc).images.get? 2 = some row ∧
      (row.isUnused = true ↔ ¬ Referenced sweepExampleDoc sweepAssetC) :=
  ⟨⟨by decide, by decide⟩,
   c4_sweep_classification.1 sweepExampleDoc (by decide) (by decide) 2
     sweepAssetC (by decide)⟩

/-- A session with one site entry carrying a real token, for the C1
witness. -/
def c1WitnessSession : SessionState :=
  { accessToken := none
    authorizedSites := some [("sW",
      { siteId := "sW", siteName := none, accessToken := some "tokW",
        scopes := none, firstSeenAt := 0, lastSeenAt := 0 })] }

/-- C1 (witness): the amended gate theorem at a concrete session with one
tokened site entry. -/
theorem c1_status_authenticated_witness :
    (authStatusHandler c1WitnessSession).2.authenticated = true :=
  (c1_status_authenticated_iff c1WitnessSession).mpr (by decide)
